import Mathlib

/-!
Verification of the cloud object cache layer of this repository
(`src/server/managers/StorageManager.js`, the unnamed earlier variant of the
same manager, `src/server/migrations/v2.31.0-add-default-permission.js`, and
`src/client/components/tables/LibraryFilesTableRow.vue`) against its
natural-language specification.

The JavaScript is shallowly embedded: strings are Lean `String`s processed as
`List Char`, the mutable manager singleton becomes an explicit `ManagerState`
threaded through each method, the AWS SDK client becomes an `S3Env` of
response functions, and every method returns its JS result (`Except JsError`)
together with the updated state and the list of network calls it issued.
-/

/-! ## JavaScript primitives -/

/-- A JavaScript error value: its `name` (e.g. `"NotFound"`, `"ReferenceError"`)
and its `message`.  `new Error(msg)` has name `"Error"`. -/
structure JsError where
  name : String
  message : String
deriving DecidableEq

/-- The `ReferenceError` raised when JS evaluates an identifier that is not in
scope (this happens in several catch-block template literals of the source). -/
def referenceError (ident : String) : JsError :=
  ⟨"ReferenceError", ident ++ " is not defined"⟩

/-- JS truthiness of a string: only the empty string is falsy.  A missing
(undefined/null) setting is modelled as the empty string, which the source's
`!settings.x` checks treat identically. -/
def jsTruthy (s : String) : Bool :=
  !(s == "")

/-- Characters matched by the JS regex class `\s` (ECMAScript WhiteSpace and
LineTerminator code points), which is also the set removed by
`String.prototype.trim`. -/
def jsWhitespace (c : Char) : Bool :=
  let n := c.toNat
  n == 32 || n == 9 || n == 10 || n == 11 || n == 12 || n == 13 ||
  n == 160 || n == 5760 || (8192 ≤ n && n ≤ 8202) ||
  n == 8232 || n == 8233 || n == 8239 || n == 8287 || n == 12288 || n == 65279

/-- ASCII `A`-`Z`. -/
def isAsciiUpperAlpha (c : Char) : Bool :=
  65 ≤ c.toNat && c.toNat ≤ 90

/-- ASCII `a`-`z`. -/
def isAsciiLowerAlpha (c : Char) : Bool :=
  97 ≤ c.toNat && c.toNat ≤ 122

/-- ASCII `0`-`9`. -/
def isAsciiDigit (c : Char) : Bool :=
  48 ≤ c.toNat && c.toNat ≤ 57

/-! ## Key derivation (`s3SafeFileName`, StorageManager.js lines 100-123) -/

/-- Characters kept (not replaced by a space) by
`replace(/[^a-zA-Z0-9\s\/]/g, ' ')`. -/
def keepChar (c : Char) : Bool :=
  isAsciiUpperAlpha c || isAsciiLowerAlpha c || isAsciiDigit c ||
  jsWhitespace c || c == '/'

/-- `replace(/[^a-zA-Z0-9\s\/]/g, ' ')`: every character outside the class is
replaced by a single space. -/
def replaceDisallowed (l : List Char) : List Char :=
  l.map (fun c => if keepChar c then c else ' ')

/-- `String.prototype.trim()`: drop leading and trailing whitespace. -/
def jsTrim (l : List Char) : List Char :=
  ((l.dropWhile jsWhitespace).reverse.dropWhile jsWhitespace).reverse

/-- `replace(/\s+/g, ' ')`: each maximal run of whitespace becomes one space.
The flag records whether the previous character was part of a whitespace run. -/
def collapseWs : Bool → List Char → List Char
  | _, [] => []
  | prevWs, c :: rest =>
    if jsWhitespace c then
      if prevWs then collapseWs true rest else ' ' :: collapseWs true rest
    else
      c :: collapseWs false rest

/-- `String.prototype.toLowerCase()`.  At its use sites in the pipeline only
ASCII letters, digits, spaces and `/` can occur (everything else was already
replaced), so the basic-latin lowering `Char.toLower` is exact there; on the
raw extension the characters it would further change are removed by the
subsequent `[^a-z0-9.]` filter either way. -/
def jsToLower (l : List Char) : List Char :=
  l.map Char.toLower

/-- The character map underlying `replace(/\s/g, '-')`. -/
def wsDashChar (c : Char) : Char :=
  if jsWhitespace c then '-' else c

/-- `replace(/\s/g, '-')`: every remaining whitespace character becomes a dash. -/
def wsToDash (l : List Char) : List Char :=
  l.map wsDashChar

/-- `replace(/^\//, '')`: strip a single leading forward slash, if present. -/
def stripLeadingSlash : List Char → List Char
  | [] => []
  | c :: rest => if c = '/' then rest else c :: rest

/-- Index of the last `'.'`, i.e. `String.prototype.lastIndexOf('.')`
(`none` plays the role of `-1`). -/
def lastDotIdx : List Char → Option Nat
  | [] => none
  | c :: rest =>
    match lastDotIdx rest with
    | some i => some (i + 1)
    | none => if c = '.' then some 0 else none

/-- The split performed by lines 102-103 of `s3SafeFileName`: when
`lastIndexOf('.') > 0` the extension is the substring from the last dot and the
body is what precedes it; otherwise the extension is empty and the body is the
whole input. -/
def splitExt (l : List Char) : List Char × List Char :=
  match lastDotIdx l with
  | some i => if 0 < i then (l.take i, l.drop i) else (l, [])
  | none => (l, [])

/-- The sanitized body before the final leading-slash strip: the `safeName`
pipeline of lines 111-116. -/
def preStripName (l : List Char) : List Char :=
  wsToDash (jsToLower (collapseWs false (jsTrim (replaceDisallowed l))))

/-- The sanitized body including the `replace(/^\//, '')` of line 122. -/
def safeNameOf (l : List Char) : List Char :=
  stripLeadingSlash (preStripName l)

/-- The character class `[a-z0-9.]` kept by the extension sanitizer
(line 119). -/
def extCharOK (c : Char) : Bool :=
  isAsciiLowerAlpha c || isAsciiDigit c || c == '.'

/-- The character class `[a-z0-9/\-]` the spec asserts for the sanitized
body. -/
def bodyCharOK (c : Char) : Bool :=
  isAsciiLowerAlpha c || isAsciiDigit c || c == '/' || c == '-'

/-- `ext.toLowerCase().replace(/[^a-z0-9.]/g, '')` (line 119). -/
def safeExtOf (l : List Char) : List Char :=
  (jsToLower l).filter extCharOK

/-- `s3SafeFileName` on character lists: sanitized body plus sanitized
extension. -/
def s3SafeFileNameL (l : List Char) : List Char :=
  safeNameOf (splitExt l).1 ++ safeExtOf (splitExt l).2

/-- `s3SafeFileName(fileName)` (StorageManager.js lines 100-123). -/
def s3SafeFileName (s : String) : String :=
  String.mk (s3SafeFileNameL s.data)

/-- `getKey = (itemId) => `audiobooks/${itemId}.zip`` (the fixed-pattern key of
the unnamed manager variant, line 95). -/
def getKey (itemId : String) : String :=
  "audiobooks/" ++ itemId ++ ".zip"

/-! ## The storage manager state machine

Both manager variants (`src/unnamed/part_000` and
`src/server/managers/StorageManager.js`) share the constructor,
`init`, `initS3Storage` and `testS3Connection` verbatim; they differ in key
derivation (`getKey` vs `s3SafeFileName`) and in the cache / signed-URL /
existence methods, which are all embedded separately below. -/

/-- The `clientConfig` handed to `new S3Client(...)` (lines 61-69). -/
structure S3ClientConfig where
  region : String
  accessKeyId : String
  secretAccessKey : String
deriving DecidableEq

/-- The mutable fields of the `StorageManager` singleton. -/
structure ManagerState where
  s3Client : Option S3ClientConfig
  bucket : Option String
  isInitialized : Bool
  isS3Enabled : Bool
deriving DecidableEq

/-- The constructor (lines 15-20): everything null / false.  Note that
`isS3Enabled` is never assigned anywhere else in either source file. -/
def initialState : ManagerState :=
  ⟨none, none, false, false⟩

/-- The server settings consumed by `init` (field names as in the source). -/
structure ServerSettings where
  cloudStorageEnabled : Bool
  cloudStorageS3Region : String
  cloudStorageS3Bucket : String
  cloudStorageS3AccessKey : String
  cloudStorageS3SecretKey : String

/-- A network request issued to the object store, recorded for the
"no network call" claims.  `contentType` is the `ContentType` parameter of the
upload commands (present only in the unnamed variant's `cacheZipFile`). -/
inductive NetCall where
  | headBucket (bucket : Option String)
  | headObject (bucket : Option String) (key : String)
  | putObject (bucket : Option String) (key : String) (contentType : Option String)
  | multipartUpload (bucket : Option String) (key : String) (contentType : Option String)
  | presignGet (bucket : Option String) (key : String) (expiresIn : Nat)
deriving DecidableEq

/-- The behaviour of the external S3 service: how each request kind resolves or
rejects.  The AWS SDK client is an external collaborator; its answers are the
environment the manager runs in. -/
structure S3Env where
  headBucket : Option String → Except JsError Unit
  headObject : Option String → String → Except JsError Unit
  putObject : Option String → String → Except JsError Unit
  multipartUpload : Option String → String → Except JsError Unit
  presignGet : Option String → String → Nat → Except JsError String

/-- Result of a manager method: the JS return/throw, the manager state after
the call, and the network calls issued during it. -/
abbrev MRes (α : Type) := Except JsError α × ManagerState × List NetCall

/-- `new Error('S3 storage not initialized')` thrown by the cache methods. -/
def notInitializedError : JsError :=
  ⟨"Error", "S3 storage not initialized"⟩

/-- `testS3Connection` (lines 84-93): send `HeadBucketCommand`; on failure wrap
the cause in `new Error('S3 bucket access failed: ...')` and rethrow. -/
def testS3Connection (env : S3Env) (st : ManagerState) : MRes Unit :=
  match env.headBucket st.bucket with
  | .ok _ => (.ok (), st, [.headBucket st.bucket])
  | .error e =>
    (.error ⟨"Error", "S3 bucket access failed: " ++ e.message⟩, st, [.headBucket st.bucket])

/-- `initS3Storage(settings)` (lines 47-79): validate the four settings before
touching the network, then construct the client, record the bucket, and probe
it.  The inner try/catch logs and rethrows the same error. -/
def initS3Storage (env : S3Env) (settings : ServerSettings) (st : ManagerState) : MRes Unit :=
  if !jsTruthy settings.cloudStorageS3Region || !jsTruthy settings.cloudStorageS3Bucket then
    (.error ⟨"Error", "S3 storage requires region and bucket configuration"⟩, st, [])
  else if !jsTruthy settings.cloudStorageS3AccessKey || !jsTruthy settings.cloudStorageS3SecretKey then
    (.error ⟨"Error", "S3 storage requires access key and secret key"⟩, st, [])
  else
    let st1 : ManagerState :=
      ⟨some ⟨settings.cloudStorageS3Region, settings.cloudStorageS3AccessKey,
             settings.cloudStorageS3SecretKey⟩,
       some settings.cloudStorageS3Bucket, st.isInitialized, st.isS3Enabled⟩
    testS3Connection env st1

/-- `init()` (lines 25-42): nothing happens when cloud storage is disabled;
otherwise `initS3Storage` runs and, on success, `isInitialized` is set.  The
catch logs and rethrows.  `isS3Enabled` is not assigned on any path. -/
def init (env : S3Env) (settings : ServerSettings) (st : ManagerState) : MRes Unit :=
  if !settings.cloudStorageEnabled then
    (.ok (), st, [])
  else
    match initS3Storage env settings st with
    | (.ok _, st1, calls) =>
      (.ok (), ⟨st1.s3Client, st1.bucket, true, st1.isS3Enabled⟩, calls)
    | (.error e, st1, calls) => (.error e, st1, calls)

/-- The payload passed to the cache methods: an in-memory `Buffer` or a
stream (`Buffer.isBuffer` dispatches between the two upload strategies). -/
inductive DataPayload where
  | buffer (bytes : List Nat)
  | stream
deriving DecidableEq

/-- `error.name === 'NotFound' || error.name === 'NoSuchKey'`. -/
def isNotFoundName (name : String) : Bool :=
  name == "NotFound" || name == "NoSuchKey"

/-- `cacheZipFile(itemId, data)` of the unnamed variant (part_000 lines
103-143): fail fast when uninitialized, else upload under `getKey itemId` with
content type `application/zip`.  The catch block's log line interpolates the
identifier `bookId`, which is not in scope there (the parameter is `itemId`),
so a failed upload rejects with a `ReferenceError` instead of the original
error. -/
def cacheZipFile (env : S3Env) (itemId : String) (data : DataPayload)
    (st : ManagerState) : MRes String :=
  if !st.isInitialized then
    (.error notInitializedError, st, [])
  else
    let key := getKey itemId
    match data with
    | .buffer _ =>
      match env.putObject st.bucket key with
      | .ok _ => (.ok key, st, [.putObject st.bucket key (some "application/zip")])
      | .error _ =>
        (.error (referenceError "bookId"), st, [.putObject st.bucket key (some "application/zip")])
    | .stream =>
      match env.multipartUpload st.bucket key with
      | .ok _ => (.ok key, st, [.multipartUpload st.bucket key (some "application/zip")])
      | .error _ =>
        (.error (referenceError "bookId"), st, [.multipartUpload st.bucket key (some "application/zip")])

/-- `cacheFile(fileName, data)` (StorageManager.js lines 131-169): as
`cacheZipFile` but keyed by `s3SafeFileName fileName` and with no declared
content type.  Its catch block has the same out-of-scope `bookId`. -/
def cacheFile (env : S3Env) (fileName : String) (data : DataPayload)
    (st : ManagerState) : MRes String :=
  if !st.isInitialized then
    (.error notInitializedError, st, [])
  else
    let key := s3SafeFileName fileName
    match data with
    | .buffer _ =>
      match env.putObject st.bucket key with
      | .ok _ => (.ok key, st, [.putObject st.bucket key none])
      | .error _ =>
        (.error (referenceError "bookId"), st, [.putObject st.bucket key none])
    | .stream =>
      match env.multipartUpload st.bucket key with
      | .ok _ => (.ok key, st, [.multipartUpload st.bucket key none])
      | .error _ =>
        (.error (referenceError "bookId"), st, [.multipartUpload st.bucket key none])

/-- `getSignedUrlForZipFile(itemId, expiresIn)` of the unnamed variant
(part_000 lines 151-188): throw when uninitialized; probe the object; a
`NotFound`/`NoSuchKey` rejection of probe or signing returns `null`; any other
rejection is logged (the parameter `itemId` is in scope there) and rethrown
unchanged. -/
def getSignedUrlForZipFile (env : S3Env) (itemId : String) (expiresIn : Nat)
    (st : ManagerState) : MRes (Option String) :=
  if !st.isInitialized then
    (.error notInitializedError, st, [])
  else
    let key := getKey itemId
    match env.headObject st.bucket key with
    | .error e =>
      if isNotFoundName e.name then (.ok none, st, [.headObject st.bucket key])
      else (.error e, st, [.headObject st.bucket key])
    | .ok _ =>
      match env.presignGet st.bucket key expiresIn with
      | .ok url =>
        (.ok (some url), st, [.headObject st.bucket key, .presignGet st.bucket key expiresIn])
      | .error e =>
        if isNotFoundName e.name then
          (.ok none, st, [.headObject st.bucket key, .presignGet st.bucket key expiresIn])
        else
          (.error e, st, [.headObject st.bucket key, .presignGet st.bucket key expiresIn])

/-- `getSignedUrlForFile(fileName, expiresIn)` (StorageManager.js lines
177-215): returns `null` (not an error) when uninitialized; probes under
`s3SafeFileName fileName`; `NotFound`/`NoSuchKey` returns `null`.  On any
other rejection the catch's log line interpolates `itemId`, which is not in
scope in this method (the parameter is `fileName`), so a `ReferenceError` is
raised there and the `return null` written after the log is never reached. -/
def getSignedUrlForFile (env : S3Env) (fileName : String) (expiresIn : Nat)
    (st : ManagerState) : MRes (Option String) :=
  if !st.isInitialized then
    (.ok none, st, [])
  else
    let key := s3SafeFileName fileName
    match env.headObject st.bucket key with
    | .error e =>
      if isNotFoundName e.name then (.ok none, st, [.headObject st.bucket key])
      else (.error (referenceError "itemId"), st, [.headObject st.bucket key])
    | .ok _ =>
      match env.presignGet st.bucket key expiresIn with
      | .ok url =>
        (.ok (some url), st, [.headObject st.bucket key, .presignGet st.bucket key expiresIn])
      | .error e =>
        if isNotFoundName e.name then
          (.ok none, st, [.headObject st.bucket key, .presignGet st.bucket key expiresIn])
        else
          (.error (referenceError "itemId"), st,
           [.headObject st.bucket key, .presignGet st.bucket key expiresIn])

/-- `zipFileExists(itemId, filename)` of the unnamed variant (part_000 lines
196-220): returns `false` immediately unless both `isInitialized` and
`isS3Enabled` hold; otherwise probes `getKey itemId` (the extra `filename`
argument is ignored by `getKey`).  `NotFound`/`NoSuchKey` yields `false`; on
any other rejection the log line interpolates the out-of-scope identifier
`bookId`, raising a `ReferenceError` before the `return false` is reached. -/
def zipFileExists (env : S3Env) (itemId : String) (st : ManagerState) : MRes Bool :=
  if !st.isInitialized || !st.isS3Enabled then
    (.ok false, st, [])
  else
    let key := getKey itemId
    match env.headObject st.bucket key with
    | .ok _ => (.ok true, st, [.headObject st.bucket key])
    | .error e =>
      if isNotFoundName e.name then (.ok false, st, [.headObject st.bucket key])
      else (.error (referenceError "bookId"), st, [.headObject st.bucket key])

/-- `zipFileExists(itemId, filename)` of StorageManager.js (lines 223-247):
identical control flow, but keyed by `s3SafeFileName itemId` (again the extra
argument is ignored). -/
def zipFileExistsSM (env : S3Env) (itemId : String) (st : ManagerState) : MRes Bool :=
  if !st.isInitialized || !st.isS3Enabled then
    (.ok false, st, [])
  else
    let key := s3SafeFileName itemId
    match env.headObject st.bucket key with
    | .ok _ => (.ok true, st, [.headObject st.bucket key])
    | .error e =>
      if isNotFoundName e.name then (.ok false, st, [.headObject st.bucket key])
      else (.error (referenceError "bookId"), st, [.headObject st.bucket key])

/-! ## The v2.31.0 permission migration
(`src/server/migrations/v2.31.0-add-default-permission.js`)

The migration is modelled at the JSON-value level: the `permissions` column is
either falsy (NULL / empty string, which the source maps to `{}` before
updating), a non-falsy string that `JSON.parse` rejects (the row's try/catch
logs and leaves the row alone), or a parsed JSON value. -/

/-- JSON values (`JSON.parse` output).  Objects carry their fields in order;
`JSON.parse` never produces duplicate keys. -/
inductive Json where
  | null
  | bool (b : Bool)
  | num (n : Int)
  | str (s : String)
  | arr (elems : List Json)
  | obj (fields : List (String × Json))

/-- Field lookup, i.e. JS property access on a parsed object. -/
def lookupField : List (String × Json) → String → Option Json
  | [], _ => none
  | (k', v) :: rest, k => if k' = k then some v else lookupField rest k

/-- The stored `permissions` column, as seen through `JSON.parse`. -/
inductive PermColumn where
  | nullPerm
  | invalidJson (raw : String)
  | parsed (j : Json)

/-- `permissions.saveToCloud === undefined` is false, i.e. the key is defined.
On a falsy column the source parses `{}` (no keys); on a non-object JSON value
property access yields `undefined` (arrays gain the property transiently, but
`JSON.stringify` drops non-index array properties, and on primitives the sloppy
mode assignment is ignored). -/
def saveToCloudDefined : PermColumn → Bool
  | .parsed (.obj fields) => (lookupField fields "saveToCloud").isSome
  | _ => false

/-- Reading a key out of the stored permissions JSON (for frame statements). -/
def permLookup : PermColumn → String → Option Json
  | .parsed (.obj fields), k => lookupField fields k
  | _, _ => none

/-- The per-row body of the migration's loop (lines 36-61): parse (falsy ⇒
`{}`, unparseable ⇒ caught error, row untouched), and when `saveToCloud` is
undefined set it to `true` and write the reserialized JSON back.  Setting a
property on a parsed primitive is lost before the write, and on an array it is
dropped by `JSON.stringify`, so those columns keep their value. -/
def migratePerm : PermColumn → PermColumn
  | .nullPerm => .parsed (.obj [("saveToCloud", .bool true)])
  | .invalidJson raw => .invalidJson raw
  | .parsed (.obj fields) =>
    if (lookupField fields "saveToCloud").isSome then .parsed (.obj fields)
    else .parsed (.obj (fields ++ [("saveToCloud", .bool true)]))
  | .parsed j => .parsed j

/-- A row of the `users` table.  `otherColumns` stands for every column other
than the four the migration reads; the `UPDATE` statement touches only
`permissions`. -/
structure UserRow where
  id : String
  username : String
  type : String
  permissions : PermColumn
  otherColumns : List (String × String)

/-- `type IN ('root', 'admin')` — the `WHERE` clause of the `SELECT`. -/
def isRootOrAdmin (u : UserRow) : Bool :=
  u.type == "root" || u.type == "admin"

/-- The effect of the migration on one row: only selected rows are updated. -/
def migrateRow (u : UserRow) : UserRow :=
  if isRootOrAdmin u then
    ⟨u.id, u.username, u.type, migratePerm u.permissions, u.otherColumns⟩
  else u

/-- `up` (lines 20-70) as a transformation of the users table. -/
def up (users : List UserRow) : List UserRow :=
  users.map migrateRow

/-! ## The `LibraryFilesTableRow` component
(`src/client/components/tables/LibraryFilesTableRow.vue`, `saveToCloud`,
lines 112-134)

The component state is the `savingsToCloud` data flag plus, for the in-flight
invariant, the number of save requests currently awaited.  An invocation is
atomic up to its `await` (the JS event loop cannot interleave there); the
`finally` block runs when the awaited request settles. -/

/-- Component state: the `savingsToCloud` data flag and the number of
outstanding save-to-cloud HTTP requests. -/
structure RowState where
  savingsToCloud : Bool
  inFlight : Nat
deriving DecidableEq

/-- `data()` (line 37): `savingsToCloud: false`, nothing awaited. -/
def initialRowState : RowState :=
  ⟨false, 0⟩

/-- How the awaited request settles: a response with `success: true` carrying
`fileName`, a response with `success` falsy, or a rejection whose derived
message is `error.response?.data?.message || error.message || 'Failed to save
to cloud'`. -/
inductive SaveOutcome where
  | success (fileName : String)
  | failure
  | rejected (message : String)
deriving DecidableEq

/-- A toast shown to the user. -/
inductive Toast where
  | success (msg : String)
  | error (msg : String)
deriving DecidableEq

/-- The synchronous part of `saveToCloud()` (lines 113-118): the guard returns
immediately when a save is in flight; otherwise the flag is set and one HTTP
request is issued.  The second component counts requests issued by this
invocation. -/
def saveToCloudInvoke (st : RowState) : RowState × Nat :=
  if st.savingsToCloud then (st, 0)
  else (⟨true, st.inFlight + 1⟩, 1)

/-- The continuation after the `await` (lines 122-133): toast per outcome, and
the `finally` block clears `savingsToCloud` on every path. -/
def saveToCloudFinish (st : RowState) (o : SaveOutcome) : RowState × Toast :=
  (⟨false, st.inFlight - 1⟩,
   match o with
   | .success fileName =>
     .success ("Successfully saved \"" ++ fileName ++ "\" to cloud storage")
   | .failure => .error "Failed to save to cloud"
   | .rejected message => .error message)

/-- Events observable on one row: an invocation of `saveToCloud`, or the
settling of the awaited request. -/
inductive RowEvent where
  | invoke
  | finish (o : SaveOutcome)

/-- One event step; a `finish` with no request outstanding cannot occur and is
a no-op. -/
def rowStep (st : RowState) : RowEvent → RowState × Nat
  | .invoke => saveToCloudInvoke st
  | .finish o => if st.inFlight = 0 then (st, 0) else ((saveToCloudFinish st o).1, 0)

/-- Run a sequence of events. -/
def runRow : RowState → List RowEvent → RowState
  | st, [] => st
  | st, e :: rest => runRow (rowStep st e).1 rest

/-- The reachable-state invariant of a row: saving-flag and in-flight count
move together. -/
def rowInv (st : RowState) : Prop :=
  (st.savingsToCloud = false ∧ st.inFlight = 0) ∨
  (st.savingsToCloud = true ∧ st.inFlight = 1)

/-- Equality of embedded JS results is decidable (needed so the closed
evaluations below can be checked by `decide`). -/
instance instDecEqExcept {ε α : Type} [DecidableEq ε] [DecidableEq α] :
    DecidableEq (Except ε α) := fun x y =>
  match x, y with
  | .ok a, .ok b =>
    if h : a = b then .isTrue (congrArg Except.ok h)
    else .isFalse (fun he => h (Except.ok.inj he))
  | .error a, .error b =>
    if h : a = b then .isTrue (congrArg Except.error h)
    else .isFalse (fun he => h (Except.error.inj he))
  | .ok _, .error _ => .isFalse (fun he => Except.noConfusion he)
  | .error _, .ok _ => .isFalse (fun he => Except.noConfusion he)

/-! ## Concrete fixtures used by the closed evaluations and witnesses -/

/-- An object store on which every request succeeds. -/
def envAllOk : S3Env :=
  ⟨fun _ => .ok (), fun _ _ => .ok (), fun _ _ => .ok (), fun _ _ => .ok (),
   fun _ _ _ => .ok "https://signed.example/url"⟩

/-- An object store whose existence probes reject with an error that is not a
"not found" kind. -/
def envAccessDenied : S3Env :=
  ⟨fun _ => .ok (), fun _ _ => .error ⟨"AccessDenied", "Access Denied"⟩,
   fun _ _ => .ok (), fun _ _ => .ok (), fun _ _ _ => .ok "https://signed.example/url"⟩

/-- An object store whose existence probes reject with `NotFound`. -/
def envNotFound : S3Env :=
  ⟨fun _ => .ok (), fun _ _ => .error ⟨"NotFound", "Not Found"⟩,
   fun _ _ => .ok (), fun _ _ => .ok (), fun _ _ _ => .ok "https://signed.example/url"⟩

/-- A complete, enabled configuration. -/
def settingsValid : ServerSettings :=
  ⟨true, "us-east-1", "abs-bucket", "AKIA", "SECRET"⟩

/-- A manager state as produced by a successful `init` (client and bucket set,
`isInitialized` true, `isS3Enabled` still false — no code path sets it). -/
def stReady : ManagerState :=
  ⟨some ⟨"us-east-1", "AKIA", "SECRET"⟩, some "abs-bucket", true, false⟩

/-- The state the existence check's guard asks for: initialized and
`isS3Enabled` — a state no run of the source can actually produce. -/
def stReadyEnabled : ManagerState :=
  ⟨some ⟨"us-east-1", "AKIA", "SECRET"⟩, some "abs-bucket", true, true⟩

/-! ## Claim C1 -/

/-- Claim C1, code evaluation: against a store that answers every request
(including the existence probe for the freshly stored key) successfully, a
successful `init` followed by a successful `cacheZipFile` still leaves
`zipFileExists` answering `false` for that same item — the guard
`!this.isS3Enabled` short-circuits because `isS3Enabled` is assigned only in
the constructor (to `false`) and never set by `init`. -/
theorem c1_exists_false_after_successful_store :
    (init envAllOk settingsValid initialState).1 = .ok ()
  ∧ (init envAllOk settingsValid initialState).2.1.isInitialized = true
  ∧ (cacheZipFile envAllOk "item1" (.buffer [80, 75])
      (init envAllOk settingsValid initialState).2.1).1 = .ok "audiobooks/item1.zip"
  ∧ envAllOk.headObject (init envAllOk settingsValid initialState).2.1.bucket
      (getKey "item1") = .ok ()
  ∧ (zipFileExists envAllOk "item1"
      (init envAllOk settingsValid initialState).2.1).1 = .ok false
  ∧ (init envAllOk settingsValid initialState).2.1.isS3Enabled = false := by
  decide

/-! ## Claim C3 -/

/-- Claim C3, code evaluation: with the existence check's own guard satisfied
(`isInitialized` and `isS3Enabled` both true), a `NotFound` rejection of the
probe does map to `false`, but any other rejection makes the method throw: its
catch block's log line interpolates `bookId`, an identifier that is not in
scope there, so a `ReferenceError` escapes instead of the written
`return false`. -/
theorem c3_exists_raises_on_non_not_found_error :
    (zipFileExists envNotFound "item1" stReadyEnabled).1 = .ok false
  ∧ (zipFileExists envAccessDenied "item1" stReadyEnabled).1
      = .error (referenceError "bookId")
  ∧ (zipFileExistsSM envAccessDenied "item1" stReadyEnabled).1
      = .error (referenceError "bookId") := by
  decide

/-! ## Claim C2 -/

/-- Claim C2, counterexample: `getSignedUrlForFile` does not propagate a
non-"not found" probe error to the caller.  With the probe rejecting with
`AccessDenied`, the call rejects with a `ReferenceError` (the catch's log line
references the out-of-scope identifier `itemId`) — not with the probe's error. -/
theorem c2_counterexample :
    envAccessDenied.headObject stReady.bucket (s3SafeFileName "book")
      = .error ⟨"AccessDenied", "Access Denied"⟩
  ∧ isNotFoundName "AccessDenied" = false
  ∧ stReady.isInitialized = true
  ∧ (getSignedUrlForFile envAccessDenied "book" 3600 stReady).1
      = .error (referenceError "itemId")
  ∧ (getSignedUrlForFile envAccessDenied "book" 3600 stReady).1
      ≠ .error ⟨"AccessDenied", "Access Denied"⟩ := by
  decide

/-! ## Claim C4 -/

/-- Claim C4, counterexample: the sanitizer maps the spec's example input to a
key with an extra dash directly before the path separator (body
`my-book-part-1-` then `/chapter` then `.mp3`), not to the claimed
`"my-book-part-1/chapter.mp3"`: the closing parenthesis becomes a space, which
survives the collapse and is turned into a dash in front of the slash. -/
theorem c4_counterexample :
    s3SafeFileName "My Book (Part 1)/Chapter.MP3" = "my-book-part-1-/chapter.mp3"
  ∧ s3SafeFileName "My Book (Part 1)/Chapter.MP3" ≠ "my-book-part-1/chapter.mp3" := by
  decide

/-- Claim C4 (amended): the key-derivation function maps
`"My Book (Part 1)/Chapter.MP3"` to exactly the key whose body is
`my-book-part-1-` followed by `/chapter` and the lowercased extension `.mp3`. -/
theorem c4_s3SafeFileName_example :
    s3SafeFileName "My Book (Part 1)/Chapter.MP3" = "my-book-part-1-/chapter.mp3" := by
  decide

/-! ## Claim C5 -/

/-- Claim C5, counterexample: two successive `init` calls with the same valid
configuration leave the manager initialized both times, but each call issues
its own `HeadBucket` reachability probe — two probes across the two calls,
refuting "at most once"; the second call is not a no-op. -/
theorem c5_counterexample :
    (init envAllOk settingsValid initialState).2.1.isInitialized = true
  ∧ (init envAllOk settingsValid
      (init envAllOk settingsValid initialState).2.1).2.1.isInitialized = true
  ∧ ((init envAllOk settingsValid initialState).2.2 ++
     (init envAllOk settingsValid
       (init envAllOk settingsValid initialState).2.1).2.2)
      = [.headBucket (some "abs-bucket"), .headBucket (some "abs-bucket")]
  ∧ ¬ ((init envAllOk settingsValid initialState).2.2 ++
       (init envAllOk settingsValid
         (init envAllOk settingsValid initialState).2.1).2.2).length ≤ 1 := by
  decide

/-! ## Claim C6 -/

/-- Claim C6, counterexample: only a single leading slash is stripped
(`replace(/^\//, '')`), so the input `"//x"` sanitizes to `"/x"`, whose first
character is a forward slash — refuting "the output never starts with a
forward slash". -/
theorem c6_counterexample :
    s3SafeFileName "//x" = "/x"
  ∧ (s3SafeFileName "//x").data.head? = some '/' := by
  decide

/-! ## Claim C7 -/

/-- Claim C7: calling either store operation while the manager is not
initialized fails immediately with the `'S3 storage not initialized'` error,
leaves the state untouched, and performs no network call. -/
theorem c7_cache_fails_fast_uninitialized (env : S3Env) (itemId fileName : String)
    (data : DataPayload) (st : ManagerState) (h : st.isInitialized = false) :
    cacheZipFile env itemId data st = (.error notInitializedError, st, [])
  ∧ cacheFile env fileName data st = (.error notInitializedError, st, []) := by
  constructor <;> simp [cacheZipFile, cacheFile, h]

/-- Witness for C7 at the fresh manager state. -/
theorem c7_witness :
    cacheZipFile envAllOk "item1" .stream initialState
      = (.error notInitializedError, initialState, [])
  ∧ cacheFile envAllOk "book.zip" .stream initialState
      = (.error notInitializedError, initialState, []) :=
  c7_cache_fails_fast_uninitialized envAllOk "item1" "book.zip" .stream initialState rfl

/-! ## Claim C8 -/

/-- Claim C8: with cloud storage enabled but any of region, bucket, access key
or secret key empty/missing, `init` rejects with one of the two configuration
errors, no network call is made, and the state is returned unchanged — in
particular no client is constructed and the manager stays uninitialized. -/
theorem c8_init_config_error (env : S3Env) (settings : ServerSettings)
    (st : ManagerState) (hen : settings.cloudStorageEnabled = true)
    (hmiss : jsTruthy settings.cloudStorageS3Region = false
      ∨ jsTruthy settings.cloudStorageS3Bucket = false
      ∨ jsTruthy settings.cloudStorageS3AccessKey = false
      ∨ jsTruthy settings.cloudStorageS3SecretKey = false) :
    init env settings st
      = (.error ⟨"Error", "S3 storage requires region and bucket configuration"⟩, st, [])
  ∨ init env settings st
      = (.error ⟨"Error", "S3 storage requires access key and secret key"⟩, st, []) := by
  cases hr : jsTruthy settings.cloudStorageS3Region <;>
    cases hb : jsTruthy settings.cloudStorageS3Bucket <;>
      cases ha : jsTruthy settings.cloudStorageS3AccessKey <;>
        cases hs : jsTruthy settings.cloudStorageS3SecretKey <;>
          simp [hr, hb, ha, hs] at hmiss ⊢ <;>
            simp [init, initS3Storage, hen, hr, hb, ha, hs]

/-- Witness for C8: an enabled configuration missing its access key. -/
theorem c8_witness :
    init envAllOk ⟨true, "us-east-1", "abs-bucket", "", "SECRET"⟩ initialState
      = (.error ⟨"Error", "S3 storage requires region and bucket configuration"⟩,
         initialState, [])
  ∨ init envAllOk ⟨true, "us-east-1", "abs-bucket", "", "SECRET"⟩ initialState
      = (.error ⟨"Error", "S3 storage requires access key and secret key"⟩,
         initialState, []) :=
  c8_init_config_error envAllOk ⟨true, "us-east-1", "abs-bucket", "", "SECRET"⟩
    initialState rfl (Or.inr (Or.inr (Or.inl rfl)))

/-! ## Claim C5 (amended) -/

/-- Claim C5 (amended): with a valid, enabled configuration whose bucket probe
succeeds, each of two successive `init` calls succeeds and leaves
`isInitialized` true — but each call issues its own `HeadBucket` reachability
probe (so two probes across the two calls); there is no already-initialized
short-circuit in `init`. -/
theorem c5_init_twice_reprobes (env : S3Env) (settings : ServerSettings)
    (st : ManagerState) (hen : settings.cloudStorageEnabled = true)
    (hr : jsTruthy settings.cloudStorageS3Region = true)
    (hb : jsTruthy settings.cloudStorageS3Bucket = true)
    (ha : jsTruthy settings.cloudStorageS3AccessKey = true)
    (hs : jsTruthy settings.cloudStorageS3SecretKey = true)
    (hprobe : env.headBucket (some settings.cloudStorageS3Bucket) = .ok ()) :
    (init env settings st).1 = .ok ()
  ∧ (init env settings st).2.1.isInitialized = true
  ∧ (init env settings st).2.2 = [.headBucket (some settings.cloudStorageS3Bucket)]
  ∧ (init env settings (init env settings st).2.1).1 = .ok ()
  ∧ (init env settings (init env settings st).2.1).2.1.isInitialized = true
  ∧ (init env settings (init env settings st).2.1).2.2
      = [.headBucket (some settings.cloudStorageS3Bucket)] := by
  simp [init, initS3Storage, testS3Connection, hen, hr, hb, ha, hs, hprobe]

/-- Witness for C5's amended statement at the concrete valid configuration. -/
theorem c5_witness :
    (init envAllOk settingsValid initialState).1 = .ok ()
  ∧ (init envAllOk settingsValid initialState).2.1.isInitialized = true
  ∧ (init envAllOk settingsValid initialState).2.2
      = [.headBucket (some "abs-bucket")]
  ∧ (init envAllOk settingsValid (init envAllOk settingsValid initialState).2.1).1
      = .ok ()
  ∧ (init envAllOk settingsValid
      (init envAllOk settingsValid initialState).2.1).2.1.isInitialized = true
  ∧ (init envAllOk settingsValid
      (init envAllOk settingsValid initialState).2.1).2.2
      = [.headBucket (some "abs-bucket")] :=
  c5_init_twice_reprobes envAllOk settingsValid initialState rfl rfl rfl rfl rfl rfl

/-! ## Claim C2 (amended) -/

/-- Claim C2 (amended): on an initialized manager, when the existence probe or
the URL signing rejects with an error whose kind is not "not found",
`getSignedUrlForZipFile` propagates that very error (it never returns the
absent result), while `getSignedUrlForFile` also does not return the absent
result but rejects with a `ReferenceError` — its catch block's log line
references the out-of-scope identifier `itemId`, preempting both the original
error and the `return null` written after the log. -/
theorem c2_signed_url_error_propagation (env : S3Env) (itemId fileName : String)
    (expiresIn : Nat) (st : ManagerState) (e : JsError)
    (hinit : st.isInitialized = true) (hname : isNotFoundName e.name = false) :
    (env.headObject st.bucket (getKey itemId) = .error e →
      (getSignedUrlForZipFile env itemId expiresIn st).1 = .error e)
  ∧ (env.headObject st.bucket (getKey itemId) = .ok () →
      env.presignGet st.bucket (getKey itemId) expiresIn = .error e →
      (getSignedUrlForZipFile env itemId expiresIn st).1 = .error e)
  ∧ (env.headObject st.bucket (s3SafeFileName fileName) = .error e →
      (getSignedUrlForFile env fileName expiresIn st).1
        = .error (referenceError "itemId"))
  ∧ (env.headObject st.bucket (s3SafeFileName fileName) = .ok () →
      env.presignGet st.bucket (s3SafeFileName fileName) expiresIn = .error e →
      (getSignedUrlForFile env fileName expiresIn st).1
        = .error (referenceError "itemId")) := by
  refine ⟨fun hh => ?_, fun hh hp => ?_, fun hh => ?_, fun hh hp => ?_⟩
  · simp [getSignedUrlForZipFile, hinit, hh, hname]
  · simp [getSignedUrlForZipFile, hinit, hh, hp, hname]
  · simp [getSignedUrlForFile, hinit, hh, hname]
  · simp [getSignedUrlForFile, hinit, hh, hp, hname]

/-- Witness for C2's amended statement: `AccessDenied` probe rejections on both
signed-URL operations. -/
theorem c2_witness :
    (getSignedUrlForZipFile envAccessDenied "item1" 3600 stReady).1
      = .error ⟨"AccessDenied", "Access Denied"⟩
  ∧ (getSignedUrlForFile envAccessDenied "book" 3600 stReady).1
      = .error (referenceError "itemId") :=
  ⟨(c2_signed_url_error_propagation envAccessDenied "item1" "book" 3600 stReady
      ⟨"AccessDenied", "Access Denied"⟩ rfl rfl).1 rfl,
   (c2_signed_url_error_propagation envAccessDenied "item1" "book" 3600 stReady
      ⟨"AccessDenied", "Access Denied"⟩ rfl rfl).2.2.1 rfl⟩

/-! ## Claim C6: character-class lemmas for the sanitizer -/

/-- Does a character list begin with two forward slashes?  (Only one is
stripped by `replace(/^\//, '')`.) -/
def startsWithTwoSlashes : List Char → Bool
  | '/' :: '/' :: _ => true
  | _ => false

/-- `Char.ofNat` below the surrogate range round-trips through `toNat`. -/
theorem charOfNat_toNat {n : Nat} (h : n < 55296) : (Char.ofNat n).toNat = n := by
  have hv : n.isValidChar := Or.inl h
  unfold Char.ofNat
  rw [dif_pos hv]
  rfl

/-- Lowering an ASCII capital adds 32 to its code point. -/
theorem toLower_toNat_of_upper {c : Char} (h : isAsciiUpperAlpha c = true) :
    (Char.toLower c).toNat = c.toNat + 32 := by
  have hb : 65 ≤ c.toNat ∧ c.toNat ≤ 90 := by
    simpa [isAsciiUpperAlpha, Bool.and_eq_true, decide_eq_true_eq] using h
  unfold Char.toLower
  rw [if_pos ⟨hb.1, hb.2⟩]
  exact charOfNat_toNat (by omega)

/-- `Char.toLower` fixes everything that is not an ASCII capital. -/
theorem toLower_eq_of_not_upper {c : Char} (h : isAsciiUpperAlpha c = false) :
    Char.toLower c = c := by
  have hb : ¬(65 ≤ c.toNat ∧ c.toNat ≤ 90) := by
    intro hand
    have : isAsciiUpperAlpha c = true := by
      simp [isAsciiUpperAlpha, Bool.and_eq_true, decide_eq_true_eq]
      exact hand
    rw [this] at h
    cases h
  unfold Char.toLower
  rw [if_neg hb]

/-- Any character kept by the first regex, after lowering and the
whitespace-to-dash map, lands in the spec's body character class. -/
theorem bodyCharOK_after (c : Char) (h : keepChar c = true) :
    bodyCharOK (wsDashChar (Char.toLower c)) = true := by
  unfold wsDashChar
  by_cases hw : jsWhitespace (Char.toLower c) = true
  · rw [if_pos hw]
    decide
  · rw [if_neg hw]
    by_cases hu : isAsciiUpperAlpha c = true
    · have h32 := toLower_toNat_of_upper hu
      have hb : 65 ≤ c.toNat ∧ c.toNat ≤ 90 := by
        simpa [isAsciiUpperAlpha, Bool.and_eq_true, decide_eq_true_eq] using hu
      have : isAsciiLowerAlpha (Char.toLower c) = true := by
        simp [isAsciiLowerAlpha, Bool.and_eq_true, decide_eq_true_eq, h32]
        omega
      simp [bodyCharOK, this]
    · have hueq : isAsciiUpperAlpha c = false := by simpa using hu
      rw [toLower_eq_of_not_upper hueq] at hw ⊢
      have hws : jsWhitespace c = false := by simpa using hw
      by_cases hl : isAsciiLowerAlpha c = true
      · simp [bodyCharOK, hl]
      · by_cases hd : isAsciiDigit c = true
        · simp [bodyCharOK, hd]
        · by_cases hs : c = '/'
          · subst hs
            decide
          · exfalso
            have hl2 : isAsciiLowerAlpha c = false := by simpa using hl
            have hd2 : isAsciiDigit c = false := by simpa using hd
            have hs2 : (c == '/') = false := by simpa using hs
            simp [keepChar, hueq, hl2, hd2, hws, hs2] at h

/-- Everything `replaceDisallowed` emits is in the kept class. -/
theorem keepChar_of_mem_replaceDisallowed {c : Char} {l : List Char}
    (h : c ∈ replaceDisallowed l) : keepChar c = true := by
  obtain ⟨d, _, hd⟩ := List.mem_map.mp h
  by_cases hk : keepChar d = true
  · rw [if_pos hk] at hd
    exact hd ▸ hk
  · rw [if_neg hk] at hd
    rw [← hd]
    decide

/-- Trimming only removes characters. -/
theorem mem_of_mem_jsTrim {c : Char} {l : List Char} (h : c ∈ jsTrim l) :
    c ∈ l := by
  unfold jsTrim at h
  rw [List.mem_reverse] at h
  have h1 := (List.dropWhile_sublist jsWhitespace).subset h
  rw [List.mem_reverse] at h1
  exact (List.dropWhile_sublist jsWhitespace).subset h1

/-- Collapsing whitespace runs only keeps characters or introduces spaces. -/
theorem mem_of_mem_collapseWs {c : Char} :
    ∀ (b : Bool) (l : List Char), c ∈ collapseWs b l → c ∈ l ∨ c = ' ' := by
  intro b l
  induction l generalizing b with
  | nil => intro h; cases h
  | cons a t ih =>
    intro h
    by_cases hw : jsWhitespace a = true
    · cases b with
      | true =>
        simp only [collapseWs, hw, if_pos, if_true] at h
        rcases ih true h with h1 | h1
        · exact Or.inl (List.mem_cons_of_mem a h1)
        · exact Or.inr h1
      | false =>
        simp only [collapseWs, hw, if_pos, if_true, Bool.false_eq_true,
          if_false, List.mem_cons] at h
        rcases h with h1 | h1
        · exact Or.inr h1
        · rcases ih true h1 with h2 | h2
          · exact Or.inl (List.mem_cons_of_mem a h2)
          · exact Or.inr h2
    · rw [collapseWs, if_neg hw] at h
      rcases List.mem_cons.mp h with h1 | h1
      · exact Or.inl (h1 ▸ List.mem_cons_self a t)
      · rcases ih false h1 with h2 | h2
        · exact Or.inl (List.mem_cons_of_mem a h2)
        · exact Or.inr h2

/-- Removing the leading slash only removes characters. -/
theorem mem_of_mem_stripLeadingSlash {c : Char} {l : List Char}
    (h : c ∈ stripLeadingSlash l) : c ∈ l := by
  cases l with
  | nil => exact h
  | cons a t =>
    simp only [stripLeadingSlash] at h
    by_cases ha : a = '/'
    · rw [if_pos ha] at h
      exact List.mem_cons_of_mem a h
    · rwa [if_neg ha] at h

/-- Every character of the sanitized body is in the spec's body class. -/
theorem bodyCharOK_of_mem_safeName {c : Char} {l : List Char}
    (h : c ∈ safeNameOf l) : bodyCharOK c = true := by
  have h1 : c ∈ preStripName l := mem_of_mem_stripLeadingSlash h
  unfold preStripName wsToDash jsToLower at h1
  obtain ⟨d, hd, hcd⟩ := List.mem_map.mp h1
  obtain ⟨d0, hd0, hdd⟩ := List.mem_map.mp hd
  have hkeep : keepChar d0 = true := by
    rcases mem_of_mem_collapseWs false _ hd0 with h2 | h2
    · exact keepChar_of_mem_replaceDisallowed (mem_of_mem_jsTrim h2)
    · rw [h2]; decide
  rw [← hcd, ← hdd]
  exact bodyCharOK_after d0 hkeep

/-- Every character of the sanitized extension is in `[a-z0-9.]`. -/
theorem extCharOK_of_mem_safeExt {c : Char} {l : List Char}
    (h : c ∈ safeExtOf l) : extCharOK c = true :=
  (List.mem_filter.mp h).2

/-- The last-dot index really points at a dot. -/
theorem drop_lastDotIdx :
    ∀ (l : List Char) (i : Nat), lastDotIdx l = some i →
      ∃ r, l.drop i = '.' :: r := by
  intro l
  induction l with
  | nil => intro i h; cases h
  | cons a t ih =>
    intro i h
    rw [lastDotIdx] at h
    cases ht : lastDotIdx t with
    | some j =>
      rw [ht] at h
      obtain ⟨r, hr⟩ := ih j ht
      cases h
      exact ⟨r, hr⟩
    | none =>
      rw [ht] at h
      by_cases ha : a = '.'
      · rw [if_pos ha] at h
        cases h
        exact ⟨t, by subst ha; rfl⟩
      · rw [if_neg ha] at h
        cases h

/-- The raw extension is empty or starts with a dot. -/
theorem splitExt_snd_shape (l : List Char) :
    (splitExt l).2 = [] ∨ ∃ r, (splitExt l).2 = '.' :: r := by
  cases h : lastDotIdx l with
  | none =>
    left
    simp [splitExt, h]
  | some i =>
    by_cases hi : 0 < i
    · right
      have h2 : (splitExt l).2 = l.drop i := by simp [splitExt, h, hi]
      rw [h2]
      exact drop_lastDotIdx l i h
    · left
      simp [splitExt, h, hi]

/-- The sanitized extension is empty or starts with a dot. -/
theorem safeExt_shape (l : List Char) :
    safeExtOf (splitExt l).2 = [] ∨ (safeExtOf (splitExt l).2).head? = some '.' := by
  rcases splitExt_snd_shape l with h | ⟨r, h⟩
  · exact Or.inl (by rw [h]; rfl)
  · right
    rw [h]
    show (List.filter extCharOK (List.map Char.toLower ('.' :: r))).head? = some '.'
    rw [List.map_cons]
    have hdot : Char.toLower '.' = '.' := rfl
    rw [hdot, List.filter_cons_of_pos (by decide)]
    rfl

/-- Only a single leading slash is stripped: when the pre-strip body does not
start with two slashes, the sanitized body cannot start with one. -/
theorem safeName_head_not_slash {l : List Char}
    (h : startsWithTwoSlashes (preStripName l) = false) :
    (safeNameOf l).head? ≠ some '/' := by
  unfold safeNameOf
  cases hp : preStripName l with
  | nil => simp [stripLeadingSlash]
  | cons a t =>
    rw [hp] at h
    by_cases ha : a = '/'
    · subst ha
      show (stripLeadingSlash ('/' :: t)).head? ≠ some '/'
      cases t with
      | nil => simp [stripLeadingSlash]
      | cons b r =>
        have hb : b ≠ '/' := by
          intro hb
          subst hb
          exact absurd h (by simp [startsWithTwoSlashes])
        simpa [stripLeadingSlash] using hb
    · have hred : stripLeadingSlash (a :: t) = a :: t := by
        simp only [stripLeadingSlash]
        rw [if_neg ha]
      rw [hred]
      simpa using ha

/-- Claim C6 (amended): key derivation is deterministic; the output is the
sanitized body followed by the sanitized extension; the body contains only
lowercase ASCII letters, digits, dashes and forward slashes; the extension is
empty or a dot-prefixed string over `[a-z0-9.]`; and the output starts with a
forward slash only when the pre-strip sanitized body begins with two slashes —
the sanitizer strips exactly one leading slash, not all of them. -/
theorem c6_s3SafeFileName_properties (s t : String) :
    (s = t → s3SafeFileName s = s3SafeFileName t)
  ∧ (s3SafeFileName s).data
      = safeNameOf (splitExt s.data).1 ++ safeExtOf (splitExt s.data).2
  ∧ (∀ c ∈ safeNameOf (splitExt s.data).1, bodyCharOK c = true)
  ∧ (∀ c ∈ safeExtOf (splitExt s.data).2, extCharOK c = true)
  ∧ (safeExtOf (splitExt s.data).2 = []
      ∨ (safeExtOf (splitExt s.data).2).head? = some '.')
  ∧ (startsWithTwoSlashes (preStripName (splitExt s.data).1) = false →
      (s3SafeFileName s).data.head? ≠ some '/') := by
  refine ⟨fun h => by rw [h], rfl, fun c hc => bodyCharOK_of_mem_safeName hc,
    fun c hc => extCharOK_of_mem_safeExt hc, safeExt_shape s.data, fun h2 => ?_⟩
  have hbody := safeName_head_not_slash h2
  show (safeNameOf (splitExt s.data).1 ++ safeExtOf (splitExt s.data).2).head?
      ≠ some '/'
  cases hb : safeNameOf (splitExt s.data).1 with
  | nil =>
    rw [List.nil_append]
    rcases safeExt_shape s.data with he | he
    · rw [he]
      simp
    · rw [he]
      simp
  | cons a r =>
    rw [hb] at hbody
    simp only [List.head?_cons] at hbody
    simp only [List.cons_append, List.head?_cons]
    exact hbody

/-- Witness for C6's amended statement at a concrete filename. -/
theorem c6_witness :
    s3SafeFileName "A B.TXT" = s3SafeFileName "A B.TXT"
  ∧ (s3SafeFileName "A B.TXT").data.head? ≠ some '/' :=
  ⟨(c6_s3SafeFileName_properties "A B.TXT" "A B.TXT").1 rfl,
   (c6_s3SafeFileName_properties "A B.TXT" "A B.TXT").2.2.2.2.2 (by decide)⟩

/-! ## Claim C9: lemmas about the permission migration -/

/-- Columns the migration can extend with a key: a falsy column (parsed as
`{}`) or a parsed JSON object. -/
def isObjOrNull : PermColumn → Bool
  | .nullPerm => true
  | .parsed (.obj _) => true
  | _ => false

/-- Appending fields after a missing key makes lookup continue in the
appended part. -/
theorem lookup_append_of_none {fields : List (String × Json)} {k : String}
    (h : lookupField fields k = none) (l2 : List (String × Json)) :
    lookupField (fields ++ l2) k = lookupField l2 k := by
  induction fields with
  | nil => rfl
  | cons p t ih =>
    obtain ⟨k0, v0⟩ := p
    simp only [lookupField] at h
    simp only [List.cons_append, lookupField]
    by_cases hk : k0 = k
    · rw [if_pos hk] at h
      cases h
    · rw [if_neg hk] at h ⊢
      exact ih h

/-- Appending a differently-named field does not change a lookup. -/
theorem lookup_append_ne {fields : List (String × Json)} {k k2 : String}
    {v : Json} (h : k ≠ k2) :
    lookupField (fields ++ [(k2, v)]) k = lookupField fields k := by
  induction fields with
  | nil =>
    simp only [List.nil_append, lookupField]
    rw [if_neg (Ne.symm h)]
  | cons p t ih =>
    obtain ⟨k0, v0⟩ := p
    simp only [List.cons_append, lookupField]
    by_cases hk : k0 = k
    · rw [if_pos hk, if_pos hk]
    · rw [if_neg hk, if_neg hk]
      exact ih

/-- A column that already defines `saveToCloud` is left untouched. -/
theorem migratePerm_of_defined {p : PermColumn}
    (h : saveToCloudDefined p = true) : migratePerm p = p := by
  cases p with
  | nullPerm => simp [saveToCloudDefined] at h
  | invalidJson raw => rfl
  | parsed j =>
    cases j with
    | obj fields =>
      simp only [saveToCloudDefined] at h
      simp [migratePerm, h]
    | null => rfl
    | bool b => rfl
    | num n => rfl
    | str s2 => rfl
    | arr elems => rfl

/-- The migration of a column is idempotent. -/
theorem migratePerm_idem (p : PermColumn) :
    migratePerm (migratePerm p) = migratePerm p := by
  cases p with
  | nullPerm => rfl
  | invalidJson raw => rfl
  | parsed j =>
    cases j with
    | obj fields =>
      by_cases h : (lookupField fields "saveToCloud").isSome = true
      · simp [migratePerm, h]
      · have hnone : lookupField fields "saveToCloud" = none := by
          cases hl : lookupField fields "saveToCloud" with
          | none => rfl
          | some v => rw [hl] at h; simp at h
        have h2 : lookupField (fields ++ [("saveToCloud", Json.bool true)])
            "saveToCloud" = some (Json.bool true) := by
          rw [lookup_append_of_none hnone]
          rfl
        simp [migratePerm, h, h2]
    | null => rfl
    | bool b => rfl
    | num n => rfl
    | str s2 => rfl
    | arr elems => rfl

/-- The migrated column agrees with the original on every key other than
`saveToCloud`. -/
theorem permLookup_migrate_ne (p : PermColumn) (k : String)
    (hk : k ≠ "saveToCloud") :
    permLookup (migratePerm p) k = permLookup p k := by
  cases p with
  | nullPerm =>
    show lookupField [("saveToCloud", Json.bool true)] k = none
    simp only [lookupField]
    rw [if_neg (Ne.symm hk)]
  | invalidJson raw => rfl
  | parsed j =>
    cases j with
    | obj fields =>
      by_cases h : (lookupField fields "saveToCloud").isSome = true
      · simp [migratePerm, h, permLookup]
      · simp only [migratePerm]
        rw [if_neg h]
        show lookupField (fields ++ [("saveToCloud", Json.bool true)]) k
            = lookupField fields k
        exact lookup_append_ne hk
    | null => rfl
    | bool b => rfl
    | num n => rfl
    | str s2 => rfl
    | arr elems => rfl

/-- On a selected column without the key, the migration defines
`saveToCloud` as `true`. -/
theorem permLookup_migrate_sets {p : PermColumn}
    (hdef : saveToCloudDefined p = false) (hobj : isObjOrNull p = true) :
    permLookup (migratePerm p) "saveToCloud" = some (Json.bool true) := by
  cases p with
  | nullPerm => rfl
  | invalidJson raw => simp [isObjOrNull] at hobj
  | parsed j =>
    cases j with
    | obj fields =>
      have hnone : lookupField fields "saveToCloud" = none := by
        simp only [saveToCloudDefined] at hdef
        cases hl : lookupField fields "saveToCloud" with
        | none => rfl
        | some v => rw [hl] at hdef; simp at hdef
      have hiss : ¬((lookupField fields "saveToCloud").isSome = true) := by
        rw [hnone]
        simp
      simp only [migratePerm]
      rw [if_neg hiss]
      show lookupField (fields ++ [("saveToCloud", Json.bool true)])
          "saveToCloud" = some (Json.bool true)
      rw [lookup_append_of_none hnone]
      rfl
    | null => simp [isObjOrNull] at hobj
    | bool b => simp [isObjOrNull] at hobj
    | num n => simp [isObjOrNull] at hobj
    | str s2 => simp [isObjOrNull] at hobj
    | arr elems => simp [isObjOrNull] at hobj

/-- A migrated row keeps id, username, type and the other columns. -/
theorem migrateRow_fields (u : UserRow) :
    (migrateRow u).id = u.id ∧ (migrateRow u).username = u.username
  ∧ (migrateRow u).type = u.type
  ∧ (migrateRow u).otherColumns = u.otherColumns := by
  unfold migrateRow
  by_cases h : isRootOrAdmin u = true
  · rw [if_pos h]
    exact ⟨rfl, rfl, rfl, rfl⟩
  · rw [if_neg h]
    exact ⟨rfl, rfl, rfl, rfl⟩

/-- Migrating a row twice is the same as migrating it once. -/
theorem migrateRow_idem (u : UserRow) :
    migrateRow (migrateRow u) = migrateRow u := by
  by_cases h : isRootOrAdmin u = true
  · have h1 : migrateRow u
        = ⟨u.id, u.username, u.type, migratePerm u.permissions, u.otherColumns⟩ := by
      unfold migrateRow
      rw [if_pos h]
    have h2 : isRootOrAdmin
        (⟨u.id, u.username, u.type, migratePerm u.permissions,
          u.otherColumns⟩ : UserRow) = true := h
    rw [h1]
    unfold migrateRow
    rw [if_pos h2, migratePerm_idem]
  · have h1 : migrateRow u = u := by
      unfold migrateRow
      rw [if_neg h]
    rw [h1, h1]

/-- Claim C9: the `up` migration preserves the table's length and, on every
row, all columns except `permissions`; rows of a type other than root/admin
and rows whose permissions already define `saveToCloud` are unchanged; on
every other key of the permissions JSON the migrated column agrees with the
original; on selected rows whose permissions are a JSON object (or a falsy
column, parsed as `{}`) without `saveToCloud`, the key is set to `true`; and
running `up` a second time changes nothing. -/
theorem c9_up_frame_and_idempotent (users : List UserRow) (u : UserRow) :
    (up users).length = users.length
  ∧ (migrateRow u).id = u.id
  ∧ (migrateRow u).username = u.username
  ∧ (migrateRow u).type = u.type
  ∧ (migrateRow u).otherColumns = u.otherColumns
  ∧ (isRootOrAdmin u = false → migrateRow u = u)
  ∧ (saveToCloudDefined u.permissions = true → migrateRow u = u)
  ∧ (∀ k, k ≠ "saveToCloud" →
      permLookup (migrateRow u).permissions k = permLookup u.permissions k)
  ∧ (isRootOrAdmin u = true → saveToCloudDefined u.permissions = false →
      isObjOrNull u.permissions = true →
      permLookup (migrateRow u).permissions "saveToCloud"
        = some (Json.bool true))
  ∧ up (up users) = up users := by
  obtain ⟨hid, hun, hty, hoc⟩ := migrateRow_fields u
  refine ⟨List.length_map users migrateRow, hid, hun, hty, hoc, ?_, ?_, ?_, ?_, ?_⟩
  · intro h
    unfold migrateRow
    rw [if_neg (by rw [h]; exact Bool.false_ne_true)]
  · intro h
    unfold migrateRow
    by_cases hr : isRootOrAdmin u = true
    · rw [if_pos hr, migratePerm_of_defined h]
    · rw [if_neg hr]
  · intro k hk
    unfold migrateRow
    by_cases hr : isRootOrAdmin u = true
    · rw [if_pos hr]
      exact permLookup_migrate_ne u.permissions k hk
    · rw [if_neg hr]
  · intro hr hdef hobj
    unfold migrateRow
    rw [if_pos hr]
    exact permLookup_migrate_sets hdef hobj
  · unfold up
    rw [List.map_map]
    have hcomp : migrateRow ∘ migrateRow = migrateRow := funext migrateRow_idem
    rw [hcomp]

/-- Witness for C9: a root user with a NULL permissions column gains
`saveToCloud = true`; a member-typed row is untouched. -/
theorem c9_witness :
    permLookup (migrateRow ⟨"u1", "alice", "root", .nullPerm, []⟩).permissions
      "saveToCloud" = some (Json.bool true)
  ∧ migrateRow ⟨"u2", "bob", "member", .nullPerm, []⟩
      = ⟨"u2", "bob", "member", .nullPerm, []⟩ :=
  ⟨(c9_up_frame_and_idempotent []
      ⟨"u1", "alice", "root", .nullPerm, []⟩).2.2.2.2.2.2.2.2.1 rfl rfl rfl,
   (c9_up_frame_and_idempotent []
      ⟨"u2", "bob", "member", .nullPerm, []⟩).2.2.2.2.2.1 rfl⟩

/-! ## Claim C10 -/

/-- One event preserves the row invariant. -/
theorem rowInv_step (st : RowState) (e : RowEvent) (h : rowInv st) :
    rowInv (rowStep st e).1 := by
  rcases h with ⟨h1, h2⟩ | ⟨h1, h2⟩
  · cases e with
    | invoke =>
      right
      simp [rowStep, saveToCloudInvoke, h1, h2]
    | finish o =>
      left
      simp [rowStep, h1, h2]
  · cases e with
    | invoke =>
      right
      simp [rowStep, saveToCloudInvoke, h1, h2]
    | finish o =>
      left
      simp [rowStep, saveToCloudFinish, h1, h2]

/-- Any event sequence preserves the row invariant. -/
theorem rowInv_run (events : List RowEvent) :
    ∀ st, rowInv st → rowInv (runRow st events) := by
  induction events with
  | nil => intro st h; exact h
  | cons e rest ih => intro st h; exact ih _ (rowInv_step st e h)

/-- Claim C10: invoking `saveToCloud` while a save is in flight returns
immediately with no HTTP request and no state change; the `finally` block
clears `savingsToCloud` after every completed invocation, whatever the
outcome; and — starting from the component's initial data and following any
sequence of invocations and request completions — at most one save-to-cloud
request per row is in flight at any time. -/
theorem c10_saveToCloud_guard_and_single_flight (events : List RowEvent)
    (st : RowState) :
    (st.savingsToCloud = true → saveToCloudInvoke st = (st, 0))
  ∧ (∀ o, ((saveToCloudFinish st o).1).savingsToCloud = false)
  ∧ rowInv initialRowState
  ∧ (rowInv st → rowInv (runRow st events)
      ∧ (runRow st events).inFlight ≤ 1) := by
  refine ⟨fun h => ?_, fun o => rfl, Or.inl ⟨rfl, rfl⟩, fun h => ?_⟩
  · simp [saveToCloudInvoke, h]
  · have hr := rowInv_run events st h
    refine ⟨hr, ?_⟩
    rcases hr with ⟨_, h2⟩ | ⟨_, h2⟩ <;> omega

/-- Witness for C10: the guarded re-invocation, a failed completion clearing
the flag, and a concrete three-event trace staying within one in-flight
request. -/
theorem c10_witness :
    saveToCloudInvoke ⟨true, 1⟩ = (⟨true, 1⟩, 0)
  ∧ ((saveToCloudFinish ⟨true, 1⟩ (.rejected "boom")).1).savingsToCloud = false
  ∧ (rowInv (runRow initialRowState
        [.invoke, .invoke, .finish (.success "b.zip")])
      ∧ (runRow initialRowState
          [.invoke, .invoke, .finish (.success "b.zip")]).inFlight ≤ 1) :=
  ⟨(c10_saveToCloud_guard_and_single_flight [] ⟨true, 1⟩).1 rfl,
   (c10_saveToCloud_guard_and_single_flight [] ⟨true, 1⟩).2.1 (.rejected "boom"),
   (c10_saveToCloud_guard_and_single_flight
      [.invoke, .invoke, .finish (.success "b.zip")] initialRowState).2.2.2
     (Or.inl ⟨rfl, rfl⟩)⟩
